import Mathlib

/-!
Shallow embedding of the dj_knobb audio core:
* `DrumMachine` (src/unnamed/part_000): sample bank and one-shot voice triggering.
* `DrumSequencer` (src/components/DrumSequencer.ts): look-ahead step scheduler,
  pattern editing, offline export and WAV serialization.
* `AudioEditor` (src/components/PromptDjMidi.ts): buffer selection, cut, WAV export.

JavaScript numbers are modelled as exact rationals (`ℚ`); machine float rounding is
not modelled.  Fallible typed-array operations return `Option` (`none` = a thrown
`RangeError`).  DOM/audio-graph side effects are modelled as explicit state or as
returned descriptions of the scheduled audio nodes.
-/

namespace DjKnobb

/-! ### JavaScript primitives -/

/-- JavaScript truncation toward zero, as performed by `x | 0` and by
`DataView.setInt16`'s ToIntegerOrInfinity conversion. -/
def jsTrunc (q : ℚ) : ℤ := if 0 ≤ q then ⌊q⌋ else ⌈q⌉

/-- JavaScript `Math.round`: round half toward positive infinity. -/
def jsRound (q : ℚ) : ℤ := ⌊q + 1 / 2⌋

/-- JavaScript `time || now`: `undefined` and `0` are falsy, so both select `now`.
Used by `DrumMachine.play`'s `source.start(time || this.audioContext.currentTime)`. -/
def jsOrNow (time : Option ℚ) (now : ℚ) : ℚ :=
  match time with
  | none => now
  | some t => if t = 0 then now else t

/-- Clamping of a relative index by `%TypedArray%.subarray`: a negative index counts
from the end, and the result is clamped into `[0, len]`. -/
def jsIndex (len : ℕ) (i : ℤ) : ℕ :=
  if i < 0 then ((len : ℤ) + i).toNat else min i.toNat len

/-- Model of `data.subarray(b, e)` on a typed array of rationals. -/
def jsSubarray (data : List ℚ) (b e : ℤ) : List ℚ :=
  (data.take (jsIndex data.length e)).drop (jsIndex data.length b)

/-- Model of `data.subarray(b)`: the end index defaults to the array length. -/
def jsSubarrayFrom (data : List ℚ) (b : ℤ) : List ℚ :=
  data.drop (jsIndex data.length b)

/-- Model of `target.set(src, off)`: writes `src` into `target` starting at `off`;
throws a `RangeError` (modelled as `none`) when the source does not fit. -/
def jsSetAt (target src : List ℚ) (off : ℤ) : Option (List ℚ) :=
  if 0 ≤ off ∧ off.toNat + src.length ≤ target.length then
    some (target.take off.toNat ++ src ++ target.drop (off.toNat + src.length))
  else none

/-! ### Decoded audio buffers -/

/-- A decoded PCM buffer (`AudioBuffer`): sample rate, frame count, and one list of
samples per channel.  Well-formed buffers have every channel of length `length`. -/
structure SampleBuffer where
  sampleRate : ℕ
  length : ℕ
  channels : List (List ℚ)
deriving DecidableEq

/-- Every channel of the buffer holds exactly `length` samples. -/
def SampleBuffer.Wf (buf : SampleBuffer) : Prop :=
  ∀ ch ∈ buf.channels, ch.length = buf.length

/-! ### DrumMachine (src/unnamed/part_000) -/

/-- The description of one scheduled `AudioBufferSourceNode` → `GainNode` chain
created by `DrumMachine.play`: which voice fired, the buffer it plays, the absolute
start time handed to `source.start`, the detune in cents, and the value of the
per-trigger gain stage it is routed through. -/
structure TriggerNode where
  voice : ℕ
  buffer : SampleBuffer
  startTime : ℚ
  detune : ℚ
  gain : ℚ
deriving DecidableEq

/-- The `DrumMachine` state: the (possibly sparse) decoded sample array and the
`loaded` flag set once the decode pass completes.  A `none` entry is a voice whose
sample failed to decode. -/
structure DrumMachine where
  samples : List (Option SampleBuffer)
  loaded : Bool
deriving DecidableEq

/-- Model of `DrumMachine.play(index, time, pitchBend)`.  The guard
`if (!this.loaded || index < 0 || index >= this.samples.length || !this.samples[index]) return;`
makes unready, out-of-range, or failed-decode triggers a silent no-op (`none`).
Otherwise a source node is created with the voice's buffer, detuned by `pitchBend`,
routed through a fresh gain node (set to `1.5` for voice 0, left at the default `1`
otherwise) and started at `time || currentTime`. -/
def DrumMachine.play (dm : DrumMachine) (index : ℤ) (time : Option ℚ) (pitchBend : ℚ)
    (now : ℚ) : Option TriggerNode :=
  if dm.loaded = false ∨ index < 0 ∨ (dm.samples.length : ℤ) ≤ index then none
  else
    match dm.samples.getD index.toNat none with
    | none => none
    | some buf =>
        some { voice := index.toNat
               buffer := buf
               startTime := jsOrNow time now
               detune := pitchBend
               gain := if index = 0 then 3 / 2 else 1 }

/-! ### DrumSequencer: pattern data and the look-ahead scheduler
(src/components/DrumSequencer.ts) -/

/-- One drum pattern: a list of tracks (8 in the component), each a list of 16 step
cells; a cell is `null` (empty) or a pitch offset in cents. -/
abbrev Pattern := List (List (Option ℚ))

/-- The argument triple of one `this.drumMachine.play(i, time, pitch)` call, i.e. one
drum trigger handed to the audio engine. -/
structure ScheduledEvent where
  voice : ℕ
  time : ℚ
  pitch : ℚ
deriving DecidableEq

/-- The melody `AudioBufferSourceNode` held in `this.melodySource`: its scheduled
start time, and whether `stop()` has been called on it. -/
structure MelodyNode where
  startTime : ℚ
  stopped : Bool
deriving DecidableEq

/-- The `DrumSequencer` component state that the scheduling and editing logic
touches.  `scheduled` is the log of drum triggers already handed (fire-and-forget)
to the audio engine; `timerID` is the pending `setTimeout` handle. -/
structure SequencerState where
  patterns : List Pattern
  currentPattern : ℕ
  bpm : ℚ
  currentStep : ℕ
  nextNoteTime : ℚ
  timerID : Option ℕ
  melodyBuffer : Option SampleBuffer
  melodySource : Option MelodyNode
  scheduled : List ScheduledEvent
deriving DecidableEq

/-- The drum half of `scheduleNote`: for each of the 8 tracks of the given pattern,
if the cell at the current beat is non-null, one `play(i, time, pitch)` trigger is
issued, in track order. -/
def scheduleNoteEvents (pat : Pattern) (beatNumber : ℕ) (time : ℚ) : List ScheduledEvent :=
  (List.range 8).filterMap fun i =>
    ((pat.getD i []).getD beatNumber none).map fun pitch => ⟨i, time, pitch⟩

/-- Model of `scheduleNote(beatNumber, time)`: triggers the drums of the current pattern at
`time`, and on beat 0 with a recorded melody present starts a fresh melody source
node at `time` (replacing `this.melodySource`). -/
def scheduleNote (st : SequencerState) (beatNumber : ℕ) (time : ℚ) : SequencerState :=
  { st with
    scheduled := st.scheduled ++
      scheduleNoteEvents (st.patterns.getD st.currentPattern []) beatNumber time
    melodySource :=
      if beatNumber = 0 ∧ st.melodyBuffer.isSome then some ⟨time, false⟩
      else st.melodySource }

/-- One iteration of the `while` body of `scheduler`: schedule the current step at
`nextNoteTime`, advance `nextNoteTime` by a sixteenth note `(60/bpm)/4`, and advance
the step cursor modulo 16. -/
def schedulerIterate (st : SequencerState) : SequencerState :=
  { scheduleNote st st.currentStep st.nextNoteTime with
    nextNoteTime := st.nextNoteTime + (60 / st.bpm) / 4
    currentStep := (st.currentStep + 1) % 16 }

/-- The flat sequence of scheduler loop iterations.  The `while` clock comparison
only decides how many iterations one timer tick performs; concatenated across ticks
the iterations form exactly this sequence, so per-step scheduling times are those of
`runScheduler`. -/
def runScheduler (st : SequencerState) : ℕ → SequencerState
  | 0 => st
  | n + 1 => schedulerIterate (runScheduler st n)

/-- The drum triggers issued by `exportAudio`'s offline scheduling loop: for each
step 0..15 at time `(step * (60 / bpm)) / 4`, each non-null cell of the current
pattern fires `play(track, time, pitch)` in track order. -/
def exportDrumEvents (pat : Pattern) (bpm : ℚ) : List ScheduledEvent :=
  (List.range 16).flatMap fun step =>
    (List.range 8).filterMap fun track =>
      ((pat.getD track []).getD step none).map fun pitch =>
        ⟨track, ((step : ℚ) * (60 / bpm)) / 4, pitch⟩

/-- One sixteenth note in seconds, `(60.0 / this.bpm) / 4`. -/
def noteInterval (st : SequencerState) : ℚ := (60 / st.bpm) / 4

/-- The `while (this.nextNoteTime < this.audioContext.currentTime + this.scheduleAheadTime)`
loop of `scheduler`.  It terminates whenever the note interval is positive (always
the case in the component, where bpm is clamped to [60, 200]); the interval-positive
conjunct renders the model total. -/
def schedulerLoop (limit : ℚ) (st : SequencerState) : SequencerState :=
  if h : st.nextNoteTime < limit ∧ 0 < noteInterval st then
    schedulerLoop limit (schedulerIterate st)
  else st
termination_by (⌈(limit - st.nextNoteTime) / noteInterval st⌉).toNat
decreasing_by
  obtain ⟨hlt, hq⟩ := h
  have hni : noteInterval (schedulerIterate st) = noteInterval st := rfl
  have hnt : (schedulerIterate st).nextNoteTime = st.nextNoteTime + noteInterval st := rfl
  rw [hni, hnt]
  have key : (limit - (st.nextNoteTime + noteInterval st)) / noteInterval st =
      (limit - st.nextNoteTime) / noteInterval st - 1 := by
    field_simp
    ring_nf
  have hpos : 0 < ⌈(limit - st.nextNoteTime) / noteInterval st⌉ :=
    Int.ceil_pos.mpr (div_pos (by linarith) hq)
  rw [key, Int.ceil_sub_one]
  omega

/-- The body of `scheduler` as invoked by one timer tick: run the look-ahead loop
against the clock's current time plus the 0.1 s horizon, then re-arm the 25 ms
timer (`this.timerID = window.setTimeout(this.scheduler, 25.0)`). -/
def schedulerTick (now : ℚ) (freshID : ℕ) (st : SequencerState) : SequencerState :=
  { schedulerLoop (now + 1 / 10) st with timerID := some freshID }

/-- Model of `startPlayback`: reset the step cursor to 0, set `nextNoteTime` to the clock's
current time, and run `scheduler()` once (which arms the timer). -/
def startPlayback (now : ℚ) (freshID : ℕ) (st : SequencerState) : SequencerState :=
  schedulerTick now freshID { st with currentStep := 0, nextNoteTime := now }

/-- Model of `stopPlayback`: clear the pending timer if any (`clearTimeout`, `timerID = null`),
stop the in-flight melody source if any (`this.melodySource?.stop()`), and reset the
step cursor to 0.  The `scheduled` log is untouched: triggers already handed to the
audio engine are not retracted. -/
def stopPlayback (st : SequencerState) : SequencerState :=
  { st with
    timerID := none
    melodySource := st.melodySource.map fun m => { m with stopped := true }
    currentStep := 0 }

/-- The external stimuli of the sequencer transport: the armed timeout callback
firing (with the clock time it observes and the fresh id `setTimeout` returns),
the stop command, and the start command. -/
inductive SeqAction where
  | timerFire (now : ℚ) (freshID : ℕ)
  | stopCmd
  | startCmd (now : ℚ) (freshID : ℕ)

/-- Whether an action is the start command. -/
def SeqAction.isStartCmd : SeqAction → Bool
  | .startCmd _ _ => true
  | _ => false

/-- One step of the transport state machine.  A `timerFire` on a state with no
pending timer is the cancelled callback: it never runs (`clearTimeout` is
deterministic in the single-threaded event loop). -/
def applyAction (st : SequencerState) (a : SeqAction) : SequencerState :=
  match a with
  | .timerFire now freshID => if st.timerID.isSome then schedulerTick now freshID st else st
  | .stopCmd => stopPlayback st
  | .startCmd now freshID => startPlayback now freshID st

/-- Run a list of transport actions in order. -/
def runActions (st : SequencerState) (as : List SeqAction) : SequencerState :=
  as.foldl applyAction st

/-- A scheduler tick actually fires at state `st` on action `a`: the action is a
timer callback and a timer is pending. -/
def tickFires (st : SequencerState) (a : SeqAction) : Prop :=
  (∃ now freshID, a = SeqAction.timerFire now freshID) ∧ st.timerID.isSome = true

/-! ### Pattern-grid editing (`handleStepPointerDown` and its handlers) -/

/-- The cell of pattern `p`, track `t`, step `s` (out-of-range reads give `null`). -/
def cellAt (pats : List Pattern) (p t s : ℕ) : Option ℚ :=
  ((pats.getD p []).getD t []).getD s none

/-- The shared mutation shape of every pattern edit:
`const newPatterns = this.patterns.map(p => p.map(t => [...t]));
newPatterns[cp][track][step] = v; this.patterns = newPatterns;` — a deep copy that
differs from the original in the single targeted cell. -/
def setCell (pats : List Pattern) (cp t s : ℕ) (v : Option ℚ) : List Pattern :=
  pats.set cp ((pats.getD cp []).set t (((pats.getD cp []).getD t []).set s v))

/-- Right-click (`e.button === 2`) on a cell: clear it to `null`. -/
def rightClickClear (st : SequencerState) (track step : ℕ) : SequencerState :=
  { st with patterns := setCell st.patterns st.currentPattern track step none }

/-- Pointer-down on an empty cell: set it to the default pitch 0. -/
def pointerDownEmptyCell (st : SequencerState) (track step : ℕ) : SequencerState :=
  { st with patterns := setCell st.patterns st.currentPattern track step (some 0) }

/-- The pitch computed by the drag handler: `newPitch = startPitch + delta * 12`
(12 cents per pixel), clamped to [-2400, 2400], then `Math.round`ed. -/
def dragPitchValue (startPitch delta : ℚ) : ℤ :=
  jsRound (max (-2400) (min 2400 (startPitch + delta * 12)))

/-- The drag `moveHandler`: store the rounded clamped pitch into the cell. -/
def dragMovePitch (st : SequencerState) (track step : ℕ) (startPitch delta : ℚ) :
    SequencerState :=
  { st with
    patterns := setCell st.patterns st.currentPattern track step
      (some ((dragPitchValue startPitch delta : ℤ) : ℚ)) }

/-- The `upHandler` after a dragless click on an existing note: toggle it off. -/
def clickToggleOff (st : SequencerState) (track step : ℕ) : SequencerState :=
  { st with patterns := setCell st.patterns st.currentPattern track step none }

/-- A pattern edit behaves as claimed: bpm, current pattern index and step cursor
are unchanged, the pattern count is unchanged, the targeted cell now holds `v`, and
every other cell of every pattern is unchanged. -/
def EditFrameOk (st st' : SequencerState) (track step : ℕ) (v : Option ℚ) : Prop :=
  st'.bpm = st.bpm ∧ st'.currentPattern = st.currentPattern ∧
  st'.currentStep = st.currentStep ∧ st'.patterns.length = st.patterns.length ∧
  cellAt st'.patterns st.currentPattern track step = v ∧
  ∀ p t s, ¬(p = st.currentPattern ∧ t = track ∧ s = step) →
    cellAt st'.patterns p t s = cellAt st.patterns p t s

/-! ### AudioEditor (src/components/PromptDjMidi.ts) -/

/-- The `AudioEditor` state touched by selection and cut: the working buffer and the
unordered selection pair in seconds. -/
structure AudioEditor where
  audioBuffer : Option SampleBuffer
  selectionStart : Option ℚ
  selectionEnd : Option ℚ
deriving DecidableEq

/-- The per-channel copy loop of `cutSelection`:
`newChannelData.set(oldChannelData.subarray(0, startSample), 0);
newChannelData.set(oldChannelData.subarray(endSample), startSample);`
on a fresh zero buffer of `newLength` frames.  `none` models the `RangeError`
thrown by `set` when the source does not fit. -/
def cutChannel (old : List ℚ) (startSample endSample : ℤ) (newLength : ℕ) :
    Option (List ℚ) :=
  match jsSetAt (List.replicate newLength 0) (jsSubarray old 0 startSample) 0 with
  | none => none
  | some d1 => jsSetAt d1 (jsSubarrayFrom old endSample) startSample

/-- The `for (let i = 0; i < numberOfChannels; i++)` loop over all channels; the
first thrown `RangeError` aborts the whole loop. -/
def cutChannels (chs : List (List ℚ)) (startSample endSample : ℤ) (newLength : ℕ) :
    Option (List (List ℚ)) :=
  chs.mapM fun old => cutChannel old startSample endSample newLength

/-- Model of `cutSelection()`.  Without a buffer or a complete selection it is a guarded
no-op.  Otherwise: `start = Math.min(selectionStart, selectionEnd)` but — as in the
source — `end = Math.max(this.selectionEnd, this.selectionEnd)` (the value compared
with itself); frame indices are `Math.floor(time * sampleRate)`; a non-positive new
length empties the buffer (`null`); otherwise every channel is copied around the
cut and the selection is cleared (`resetPlayback`).  The outer `none` models an
uncaught `RangeError` from the copy loop. -/
def cutSelection (ed : AudioEditor) : Option AudioEditor :=
  match ed.audioBuffer, ed.selectionStart, ed.selectionEnd with
  | some originalBuffer, some selStart, some selEnd =>
      let start := min selStart selEnd
      let endTime := max selEnd selEnd
      let startSample : ℤ := ⌊start * (originalBuffer.sampleRate : ℚ)⌋
      let endSample : ℤ := ⌊endTime * (originalBuffer.sampleRate : ℚ)⌋
      let newLength : ℤ := (originalBuffer.length : ℤ) - (endSample - startSample)
      if newLength ≤ 0 then some ⟨none, none, none⟩
      else
        match cutChannels originalBuffer.channels startSample endSample newLength.toNat with
        | none => none
        | some newChannels =>
            some ⟨some ⟨originalBuffer.sampleRate, newLength.toNat, newChannels⟩,
              none, none⟩
  | _, _, _ => some ed

/-! ### WAV sample conversion (both export paths) -/

/-- Model of `Math.max(-1, Math.min(1, sample))`: clamp a float sample to [-1, 1]. -/
def jsClamp (s : ℚ) : ℚ := max (-1) (min 1 s)

/-- The per-sample conversion of `DrumSequencer.downloadWav`:
`view.setInt16(pos, sample < 0 ? sample * 32768 : sample * 32767, true)` applied to
the clamped sample (`setInt16` truncates toward zero). -/
def seqWavSample (s : ℚ) : ℤ :=
  let sample := jsClamp s
  jsTrunc (if sample < 0 then sample * 32768 else sample * 32767)

/-- The per-sample conversion of `AudioEditor.downloadWav`:
`sample = (0.5 + sample < 0 ? sample * 32768 : sample * 32767) | 0` applied to the
clamped sample — the condition parses as `(0.5 + sample) < 0`. -/
def editorWavSample (s : ℚ) : ℤ :=
  let sample := jsClamp s
  jsTrunc (if 1 / 2 + sample < 0 then sample * 32768 else sample * 32767)

/-! ### Concrete fixtures for the scenario claims -/

/-- The C4 scenario pattern: only track 1 ("Kick") set, at steps 0, 4, 8, 12,
default pitch 0. -/
def kickPattern : Pattern :=
  [List.replicate 16 none,
   [some 0, none, none, none, some 0, none, none, none,
    some 0, none, none, none, some 0, none, none, none],
   List.replicate 16 none, List.replicate 16 none, List.replicate 16 none,
   List.replicate 16 none, List.replicate 16 none, List.replicate 16 none]

/-- The C4 scenario start state: `kickPattern` current, BPM 140, playback just
started at clock time 0 (`currentStep = 0`, `nextNoteTime = now`). -/
def c4State : SequencerState :=
  ⟨[kickPattern], 0, 140, 0, 0, none, none, none, []⟩

/-- A minimal BPM-140 start state used to witness the scheduler/export agreement. -/
def c3State : SequencerState :=
  ⟨[], 0, 140, 0, 0, none, none, none, []⟩

/-- A 6-frame mono buffer at 4 Hz used to witness cut correctness. -/
def sixBuffer : SampleBuffer := ⟨4, 6, [[1, 2, 3, 4, 5, 6]]⟩

end DjKnobb

namespace DjKnobb

/-- Claim C6: every call to `DrumMachine.play` with an out-of-range voice index, with
a bank that has not finished loading, or for a voice whose sample failed to decode,
is a silent no-op: it schedules no audio node (result `none`), mutates no state (the
model is a pure function of the machine), and never throws (the function is total). -/
theorem play_invalid_is_noop (dm : DrumMachine) (index : ℤ) (time : Option ℚ)
    (pitchBend : ℚ) (now : ℚ)
    (h : dm.loaded = false ∨ index < 0 ∨ (dm.samples.length : ℤ) ≤ index ∨
      dm.samples.getD index.toNat none = none) :
    dm.play index time pitchBend now = none := by
  unfold DrumMachine.play
  rcases h with h | h | h | h
  · simp [h]
  · simp [h]
  · simp [h]
  · split
    · rfl
    · rw [h]

/-- Witness for C6: a not-yet-loaded machine ignores a trigger of voice 0. -/
theorem play_invalid_is_noop_witness :
    (((⟨[], false⟩ : DrumMachine).loaded = false ∨ (0 : ℤ) < 0 ∨
        (((⟨[], false⟩ : DrumMachine).samples.length : ℤ) ≤ 0) ∨
        ((⟨[], false⟩ : DrumMachine).samples.getD (0 : ℤ).toNat none = none)) ∧
      (⟨[], false⟩ : DrumMachine).play 0 none 0 0 = none) :=
  ⟨Or.inl rfl, play_invalid_is_noop ⟨[], false⟩ 0 none 0 0 (Or.inl rfl)⟩

/-- A successful trigger's node fields: the gain is 3/2 precisely for voice 0 and
the default 1 otherwise, the start time is `time || now`, the detune is the pitch
bend passed in. -/
lemma play_some_fields (dm : DrumMachine) (index : ℤ) (time : Option ℚ)
    (pitchBend now : ℚ) (n : TriggerNode)
    (h : dm.play index time pitchBend now = some n) :
    n.gain = (if index = 0 then 3 / 2 else 1) ∧ n.startTime = jsOrNow time now ∧
      n.detune = pitchBend := by
  unfold DrumMachine.play at h
  split at h
  · exact absurd h (by simp)
  · split at h
    · exact absurd h (by simp)
    · injection h with h
      subst h
      exact ⟨rfl, rfl, rfl⟩

/-- Claim C7: a trigger of voice index 0 ("808") is routed through a gain stage of
value 1.5, exactly 1.5 times the gain applied to an identical trigger (same time,
same pitch offset) of any other voice index, all else equal. -/
theorem play_808_gain (dm : DrumMachine) (j : ℤ) (time : Option ℚ) (pitchBend : ℚ)
    (now : ℚ) (n0 nj : TriggerNode) (hj : j ≠ 0)
    (h0 : dm.play 0 time pitchBend now = some n0)
    (hjv : dm.play j time pitchBend now = some nj) :
    n0.gain = (3 / 2) * nj.gain ∧ n0.gain = 3 / 2 ∧ nj.gain = 1 ∧
      n0.startTime = nj.startTime ∧ n0.detune = nj.detune := by
  obtain ⟨g0, s0, d0⟩ := play_some_fields dm 0 time pitchBend now n0 h0
  obtain ⟨gj, sj, dj⟩ := play_some_fields dm j time pitchBend now nj hjv
  rw [if_pos rfl] at g0
  rw [if_neg hj] at gj
  exact ⟨by rw [g0, gj]; ring, g0, gj, by rw [s0, sj], by rw [d0, dj]⟩

/-- Witness for C7: on a loaded two-voice machine, voice 0 carries gain 3/2 and
voice 1 carries gain 1 for the same trigger. -/
theorem play_808_gain_witness :
    ((1 : ℤ) ≠ 0 ∧
      (⟨[some ⟨44100, 1, [[0]]⟩, some ⟨44100, 1, [[0]]⟩], true⟩ : DrumMachine).play 0
          (some 2) 7 0 =
        some ⟨0, ⟨44100, 1, [[0]]⟩, 2, 7, 3 / 2⟩ ∧
      (⟨[some ⟨44100, 1, [[0]]⟩, some ⟨44100, 1, [[0]]⟩], true⟩ : DrumMachine).play 1
          (some 2) 7 0 =
        some ⟨1, ⟨44100, 1, [[0]]⟩, 2, 7, 1⟩) ∧
    (⟨0, ⟨44100, 1, [[0]]⟩, 2, 7, 3 / 2⟩ : TriggerNode).gain =
        (3 / 2) * (⟨1, ⟨44100, 1, [[0]]⟩, 2, 7, 1⟩ : TriggerNode).gain ∧
      (⟨0, ⟨44100, 1, [[0]]⟩, 2, 7, 3 / 2⟩ : TriggerNode).gain = 3 / 2 ∧
      (⟨1, ⟨44100, 1, [[0]]⟩, 2, 7, 1⟩ : TriggerNode).gain = 1 ∧
      (⟨0, ⟨44100, 1, [[0]]⟩, 2, 7, 3 / 2⟩ : TriggerNode).startTime =
        (⟨1, ⟨44100, 1, [[0]]⟩, 2, 7, 1⟩ : TriggerNode).startTime ∧
      (⟨0, ⟨44100, 1, [[0]]⟩, 2, 7, 3 / 2⟩ : TriggerNode).detune =
        (⟨1, ⟨44100, 1, [[0]]⟩, 2, 7, 1⟩ : TriggerNode).detune :=
  ⟨⟨by decide, by simp [DrumMachine.play, jsOrNow], by simp [DrumMachine.play, jsOrNow]⟩,
    play_808_gain ⟨[some ⟨44100, 1, [[0]]⟩, some ⟨44100, 1, [[0]]⟩], true⟩ 1 (some 2) 7 0
      ⟨0, ⟨44100, 1, [[0]]⟩, 2, 7, 3 / 2⟩ ⟨1, ⟨44100, 1, [[0]]⟩, 2, 7, 1⟩
      (by decide) (by simp [DrumMachine.play, jsOrNow]) (by simp [DrumMachine.play, jsOrNow])⟩

/-! ### Scheduler iteration structure -/

/-- Scheduler iterations never touch the pattern data. -/
lemma runScheduler_patterns (s0 : SequencerState) (n : ℕ) :
    (runScheduler s0 n).patterns = s0.patterns := by
  induction n with
  | zero => rfl
  | succ n ih => simp [runScheduler, schedulerIterate, scheduleNote, ih]

/-- Scheduler iterations never switch the current pattern. -/
lemma runScheduler_currentPattern (s0 : SequencerState) (n : ℕ) :
    (runScheduler s0 n).currentPattern = s0.currentPattern := by
  induction n with
  | zero => rfl
  | succ n ih => simp [runScheduler, schedulerIterate, scheduleNote, ih]

/-- Scheduler iterations never change the tempo. -/
lemma runScheduler_bpm (s0 : SequencerState) (n : ℕ) :
    (runScheduler s0 n).bpm = s0.bpm := by
  induction n with
  | zero => rfl
  | succ n ih => simp [runScheduler, schedulerIterate, scheduleNote, ih]

/-- After `n` iterations the next note time has advanced by exactly `n` sixteenth
notes: the accumulation `nextNoteTime += (60/bpm)/4` sums to `t0 + n * ((60/bpm)/4)`. -/
lemma runScheduler_nextNoteTime (s0 : SequencerState) (n : ℕ) :
    (runScheduler s0 n).nextNoteTime =
      s0.nextNoteTime + (n : ℚ) * ((60 / s0.bpm) / 4) := by
  induction n with
  | zero => simp [runScheduler]
  | succ n ih =>
      simp only [runScheduler, schedulerIterate, scheduleNote, ih, runScheduler_bpm]
      push_cast
      ring

/-- Starting from step 0, the step cursor after `n` iterations is `n % 16`. -/
lemma runScheduler_currentStep (s0 : SequencerState) (hc : s0.currentStep = 0) (n : ℕ) :
    (runScheduler s0 n).currentStep = n % 16 := by
  induction n with
  | zero => simpa [runScheduler] using hc
  | succ n ih =>
      simp only [runScheduler, schedulerIterate, scheduleNote, ih]
      omega

/-- The trigger log after `n` iterations from step 0: for each iteration `i`, the
non-empty cells of step `i % 16` fire at time `nextNoteTime₀ + i * ((60/bpm)/4)`. -/
lemma runScheduler_scheduled (s0 : SequencerState) (hc : s0.currentStep = 0) (n : ℕ) :
    (runScheduler s0 n).scheduled = s0.scheduled ++ (List.range n).flatMap fun i =>
      scheduleNoteEvents (s0.patterns.getD s0.currentPattern []) (i % 16)
        (s0.nextNoteTime + (i : ℚ) * ((60 / s0.bpm) / 4)) := by
  induction n with
  | zero => simp [runScheduler]
  | succ n ih =>
      rw [List.range_succ, List.flatMap_append]
      simp only [runScheduler, schedulerIterate, scheduleNote, ih, runScheduler_patterns,
        runScheduler_currentPattern, runScheduler_currentStep s0 hc,
        runScheduler_nextNoteTime, runScheduler_bpm]
      simp [List.append_assoc]

/-- Congruence for `flatMap` over an initial segment of the naturals. -/
lemma flatMap_range_congr {α : Type} (f g : ℕ → List α) (n : ℕ)
    (h : ∀ i, i < n → f i = g i) :
    (List.range n).flatMap f = (List.range n).flatMap g := by
  induction n with
  | zero => rfl
  | succ n ih =>
      rw [List.range_succ, List.flatMap_append, List.flatMap_append,
        ih fun i hi => h i (by omega)]
      simp [h n (by omega)]

/-- Claim C3: for every BPM in [60, 200] and every pattern, starting playback at
clock time `t0`, the live scheduler's computed absolute trigger time for iteration
`i` is `t0 + i * (60/BPM)/4` for `i = 0..15`, and the 16 scheduled steps' triggers
are exactly the offline exporter's triggers (times `(step * (60/BPM))/4`) shifted by
`t0` — the live and offline per-step time computations agree exactly. -/
theorem live_offline_times_agree (s0 : SequencerState) (t0 : ℚ)
    (hbl : 60 ≤ s0.bpm) (hbu : s0.bpm ≤ 200) (hstep : s0.currentStep = 0)
    (htime : s0.nextNoteTime = t0) (hsched : s0.scheduled = []) :
    (∀ i : ℕ, i < 16 →
      (runScheduler s0 i).nextNoteTime = t0 + (i : ℚ) * ((60 / s0.bpm) / 4)) ∧
    (runScheduler s0 16).scheduled =
      (exportDrumEvents (s0.patterns.getD s0.currentPattern []) s0.bpm).map
        fun e => { e with time := t0 + e.time } := by
  constructor
  · intro i _
    rw [runScheduler_nextNoteTime, htime]
  · rw [runScheduler_scheduled s0 hstep, hsched, htime, List.nil_append]
    unfold exportDrumEvents
    rw [List.map_flatMap]
    apply flatMap_range_congr
    intro i hi
    rw [Nat.mod_eq_of_lt hi]
    unfold scheduleNoteEvents
    rw [List.map_filterMap]
    apply List.filterMap_congr
    intro track _
    cases hcell : (s0.patterns.getD s0.currentPattern []).getD track []
        |>.getD i none with
    | none => rfl
    | some pitch =>
        simp only [Option.map_some']
        congr 1
        ring

/-- Witness for C3 at BPM 140, empty pattern store, start time 0. -/
theorem live_offline_times_agree_witness :
    (60 ≤ c3State.bpm ∧ c3State.bpm ≤ 200 ∧ c3State.currentStep = 0 ∧
      c3State.nextNoteTime = 0 ∧ c3State.scheduled = []) ∧
    ((∀ i : ℕ, i < 16 →
        (runScheduler c3State i).nextNoteTime =
          0 + (i : ℚ) * ((60 / c3State.bpm) / 4)) ∧
      (runScheduler c3State 16).scheduled =
        (exportDrumEvents (c3State.patterns.getD c3State.currentPattern [])
            c3State.bpm).map
          fun e => { e with time := 0 + e.time }) :=
  ⟨⟨by norm_num [c3State], by norm_num [c3State], rfl, rfl, rfl⟩,
    live_offline_times_agree c3State 0 (by norm_num [c3State]) (by norm_num [c3State])
      rfl rfl rfl⟩

/-- Counterexample for C4: in the scenario (track 1 "Kick" at steps {0,4,8,12},
BPM 140, start at 0) the code's scheduled trigger times are 0, 3/7 ≈ 0.4286,
6/7 ≈ 0.8571 and 9/7 ≈ 1.2857 seconds — not the 0, 0.2143, 0.4286, 0.6429 claimed. -/
theorem kick140_times_counterexample :
    ((runScheduler c4State 16).scheduled.map ScheduledEvent.time =
      [0, 3 / 7, 6 / 7, 9 / 7]) ∧
    ¬ ((runScheduler c4State 16).scheduled.map ScheduledEvent.time =
      [0, 2143 / 10000, 4286 / 10000, 6429 / 10000]) := by
  have h1 : (runScheduler c4State 16).scheduled.map ScheduledEvent.time =
      [0, 3 / 7, 6 / 7, 9 / 7] := by
    rw [runScheduler_scheduled c4State rfl 16]
    show ([] ++ (List.range 16).flatMap fun i =>
      scheduleNoteEvents (([kickPattern] : List Pattern).getD 0 []) (i % 16)
        (0 + (i : ℚ) * ((60 / 140) / 4))).map ScheduledEvent.time = _
    simp only [List.nil_append, List.getD_eq_getElem?_getD]
    norm_num [List.range_succ, scheduleNoteEvents, kickPattern, List.replicate]
    simp
  refine ⟨h1, fun hcontra => ?_⟩
  rw [h1] at hcontra
  simp only [List.cons.injEq] at hcontra
  norm_num at hcontra

/-- Amended C4: for the pattern with only track 1 ("Kick") set at steps {0,4,8,12}
and BPM = 140, the scheduled triggers relative to start are voice 1 at 0, 3/7
(≈ 0.4286), 6/7 (≈ 0.8571) and 9/7 (≈ 1.2857) seconds: the sixteenth-note interval
is (60/140)/4 = 3/28 s, so every fourth step is 3/7 s apart. -/
theorem kick140_times_actual :
    (runScheduler c4State 16).scheduled =
      [⟨1, 0, 0⟩, ⟨1, 3 / 7, 0⟩, ⟨1, 6 / 7, 0⟩, ⟨1, 9 / 7, 0⟩] := by
  rw [runScheduler_scheduled c4State rfl 16]
  show [] ++ ((List.range 16).flatMap fun i =>
    scheduleNoteEvents (([kickPattern] : List Pattern).getD 0 []) (i % 16)
      (0 + (i : ℚ) * ((60 / 140) / 4))) = _
  simp only [List.nil_append, List.getD_eq_getElem?_getD]
  norm_num [List.range_succ, scheduleNoteEvents, kickPattern, List.replicate]
  simp

/-! ### Stop semantics -/

/-- Once the timer is cleared, no trace of timer callbacks and stop commands (no
restart) ever re-arms it: a cancelled callback is a no-op and `stopPlayback` keeps
the timer cleared. -/
lemma runActions_timer_none (as : List SeqAction) (st : SequencerState)
    (h : st.timerID = none) (hns : ∀ a ∈ as, a.isStartCmd = false) :
    (runActions st as).timerID = none := by
  induction as generalizing st with
  | nil => exact h
  | cons a as ih =>
      have hrest : ∀ b ∈ as, b.isStartCmd = false := fun b hb =>
        hns b (List.mem_cons_of_mem a hb)
      have hstep : runActions st (a :: as) = runActions (applyAction st a) as := by
        simp [runActions]
      rw [hstep]
      cases a with
      | timerFire now fid =>
          have : applyAction st (SeqAction.timerFire now fid) = st := by
            simp [applyAction, h]
          rw [this]
          exact ih st h hrest
      | stopCmd => exact ih _ rfl hrest
      | startCmd now fid =>
          have := hns (SeqAction.startCmd now fid) (List.mem_cons_self _ _)
          simp [SeqAction.isStartCmd] at this

/-- Claim C8: after `stopPlayback` returns, the pending timer is cancelled
deterministically and — along any subsequent trace of timer callbacks and stop
commands containing no restart — no scheduler tick ever fires; the step cursor is
reset to 0; any in-flight melody source has been stopped; and the log of
already-triggered drum events is not retracted. -/
theorem stop_playback_semantics (st : SequencerState) (as : List SeqAction)
    (hns : ∀ a ∈ as, a.isStartCmd = false) :
    (stopPlayback st).timerID = none ∧
    (stopPlayback st).currentStep = 0 ∧
    (stopPlayback st).scheduled = st.scheduled ∧
    (∀ m, (stopPlayback st).melodySource = some m → m.stopped = true) ∧
    (∀ pre a post, as = pre ++ a :: post →
      ¬ tickFires (runActions (stopPlayback st) pre) a) := by
  refine ⟨rfl, rfl, rfl, ?_, ?_⟩
  · intro m hm
    simp only [stopPlayback, Option.map_eq_some'] at hm
    obtain ⟨m0, _, hm0⟩ := hm
    rw [← hm0]
  · intro pre a post heq
    have hpre : ∀ b ∈ pre, b.isStartCmd = false := fun b hb =>
      hns b (heq ▸ List.mem_append_left _ hb)
    have htimer : (runActions (stopPlayback st) pre).timerID = none :=
      runActions_timer_none pre (stopPlayback st) rfl hpre
    rintro ⟨⟨now, fid, rfl⟩, hsome⟩
    rw [htimer] at hsome
    simp at hsome

/-- Witness for C8: a running state (pending timer 7, mid-bar cursor, playing
melody, one logged trigger), followed by a timer callback and another stop. -/
theorem stop_playback_semantics_witness :
    (∀ a ∈ [SeqAction.timerFire 0 1, SeqAction.stopCmd], a.isStartCmd = false) ∧
    ((stopPlayback ⟨[], 0, 140, 3, 0, some 7, none, some ⟨0, false⟩,
        [⟨1, 0, 0⟩]⟩).timerID = none ∧
      (stopPlayback ⟨[], 0, 140, 3, 0, some 7, none, some ⟨0, false⟩,
        [⟨1, 0, 0⟩]⟩).currentStep = 0 ∧
      (stopPlayback ⟨[], 0, 140, 3, 0, some 7, none, some ⟨0, false⟩,
        [⟨1, 0, 0⟩]⟩).scheduled =
        (⟨[], 0, 140, 3, 0, some 7, none, some ⟨0, false⟩,
          [⟨1, 0, 0⟩]⟩ : SequencerState).scheduled ∧
      (∀ m, (stopPlayback ⟨[], 0, 140, 3, 0, some 7, none, some ⟨0, false⟩,
          [⟨1, 0, 0⟩]⟩).melodySource = some m → m.stopped = true) ∧
      (∀ pre a post,
        [SeqAction.timerFire 0 1, SeqAction.stopCmd] = pre ++ a :: post →
        ¬ tickFires
          (runActions
            (stopPlayback ⟨[], 0, 140, 3, 0, some 7, none, some ⟨0, false⟩,
              [⟨1, 0, 0⟩]⟩) pre) a)) :=
  ⟨by intro a ha
      simp only [List.mem_cons, List.not_mem_nil, or_false] at ha
      rcases ha with rfl | rfl <;> rfl,
    stop_playback_semantics ⟨[], 0, 140, 3, 0, some 7, none, some ⟨0, false⟩, [⟨1, 0, 0⟩]⟩
      [SeqAction.timerFire 0 1, SeqAction.stopCmd]
      (by intro a ha
          simp only [List.mem_cons, List.not_mem_nil, or_false] at ha
          rcases ha with rfl | rfl <;> rfl)⟩

/-! ### Pattern-edit frame conditions -/

/-- Reading with `getD` after `set` at a different index is unchanged. -/
lemma getD_set_ne {α : Type} (l : List α) (i j : ℕ) (a d : α) (h : j ≠ i) :
    (l.set i a).getD j d = l.getD j d := by
  rw [List.getD_eq_getElem?_getD, List.getElem?_set_ne fun hh => h hh.symm,
    ← List.getD_eq_getElem?_getD]

/-- Reading with `getD` after an in-range `set` at the same index yields the new value. -/
lemma getD_set_self {α : Type} (l : List α) (i : ℕ) (a d : α) (h : i < l.length) :
    (l.set i a).getD i d = a := by
  rw [List.getD_eq_getElem?_getD, List.getElem?_set_self h, Option.getD_some]

/-- The targeted cell of `setCell` holds the new value when all indices are in
range. -/
lemma cellAt_setCell_self (pats : List Pattern) (cp t s : ℕ) (v : Option ℚ)
    (hcp : cp < pats.length) (ht : t < (pats.getD cp []).length)
    (hs : s < ((pats.getD cp []).getD t []).length) :
    cellAt (setCell pats cp t s v) cp t s = v := by
  unfold cellAt setCell
  rw [getD_set_self _ _ _ _ hcp, getD_set_self _ _ _ _ ht, getD_set_self _ _ _ _ hs]

/-- Every cell other than the targeted one is unchanged by `setCell`. -/
lemma cellAt_setCell_other (pats : List Pattern) (cp t s : ℕ) (v : Option ℚ)
    (p tt ss : ℕ) (hne : ¬(p = cp ∧ tt = t ∧ ss = s)) :
    cellAt (setCell pats cp t s v) p tt ss = cellAt pats p tt ss := by
  unfold cellAt setCell
  by_cases hp : p = cp
  · subst hp
    by_cases hcp : p < pats.length
    · rw [getD_set_self _ _ _ _ hcp]
      by_cases htt : tt = t
      · subst htt
        by_cases ht : tt < (pats.getD p []).length
        · rw [getD_set_self _ _ _ _ ht]
          have hss : ss ≠ s := fun hh => hne ⟨rfl, rfl, hh⟩
          exact getD_set_ne _ _ _ _ _ hss
        · rw [List.set_eq_of_length_le (Nat.le_of_not_lt ht)]
      · rw [getD_set_ne _ _ _ _ _ htt]
    · rw [List.set_eq_of_length_le (Nat.le_of_not_lt hcp)]
  · rw [getD_set_ne _ _ _ _ _ hp]

/-- The common frame property of the copy-and-assign pattern mutation. -/
lemma editFrame_of_setCell (st : SequencerState) (track step : ℕ) (v : Option ℚ)
    (hcp : st.currentPattern < st.patterns.length)
    (ht : track < (st.patterns.getD st.currentPattern []).length)
    (hs : step < ((st.patterns.getD st.currentPattern []).getD track []).length) :
    EditFrameOk st
      { st with patterns := setCell st.patterns st.currentPattern track step v }
      track step v := by
  refine ⟨rfl, rfl, rfl, ?_, ?_, ?_⟩
  · simp [setCell]
  · exact cellAt_setCell_self st.patterns st.currentPattern track step v hcp ht hs
  · intro p t s hne
    exact cellAt_setCell_other st.patterns st.currentPattern track step v p t s hne

/-- Claim C10: every pattern-cell edit (default-pitch set on pointer-down over an
empty cell, drag pitch adjustment, right-click clear, click-toggle off) replaces the
patterns array with a deep copy in which only the targeted
(currentPattern, track, step) cell differs — every other cell, the pattern count,
the BPM and the step cursor are unchanged — and the drag-set pitch is a rounded
integer clamped to [-2400, 2400]. -/
theorem pattern_edit_frame (st : SequencerState) (track step : ℕ)
    (startPitch delta : ℚ)
    (hcp : st.currentPattern < st.patterns.length)
    (ht : track < (st.patterns.getD st.currentPattern []).length)
    (hs : step < ((st.patterns.getD st.currentPattern []).getD track []).length) :
    EditFrameOk st (rightClickClear st track step) track step none ∧
    EditFrameOk st (pointerDownEmptyCell st track step) track step (some 0) ∧
    EditFrameOk st (dragMovePitch st track step startPitch delta) track step
      (some ((dragPitchValue startPitch delta : ℤ) : ℚ)) ∧
    EditFrameOk st (clickToggleOff st track step) track step none ∧
    -2400 ≤ dragPitchValue startPitch delta ∧
    dragPitchValue startPitch delta ≤ 2400 := by
  have hc1 : (-2400 : ℚ) ≤ max (-2400) (min 2400 (startPitch + delta * 12)) :=
    le_max_left _ _
  have hc2 : max (-2400) (min 2400 (startPitch + delta * 12)) ≤ (2400 : ℚ) :=
    max_le (by norm_num) (min_le_left _ _)
  refine ⟨editFrame_of_setCell st track step none hcp ht hs,
    editFrame_of_setCell st track step (some 0) hcp ht hs,
    editFrame_of_setCell st track step _ hcp ht hs,
    editFrame_of_setCell st track step none hcp ht hs, ?_, ?_⟩
  · unfold dragPitchValue jsRound
    rw [Int.le_floor]
    push_cast
    linarith
  · unfold dragPitchValue jsRound
    have h24 : (⌊(2400 : ℚ) + 1 / 2⌋ : ℤ) = 2400 := by
      rw [Int.floor_eq_iff]
      norm_num
    calc ⌊max (-2400) (min 2400 (startPitch + delta * 12)) + 1 / 2⌋
        ≤ ⌊(2400 : ℚ) + 1 / 2⌋ := Int.floor_le_floor (by linarith)
      _ = 2400 := h24

/-- Witness for C10: a one-pattern, one-track, one-step store edited at (0,0,0). -/
theorem pattern_edit_frame_witness :
    ((⟨[[[none]]], 0, 140, 0, 0, none, none, none, []⟩ : SequencerState).currentPattern <
        (⟨[[[none]]], 0, 140, 0, 0, none, none, none, []⟩ : SequencerState).patterns.length ∧
      0 < ((⟨[[[none]]], 0, 140, 0, 0, none, none, none, []⟩ :
        SequencerState).patterns.getD 0 []).length ∧
      0 < (((⟨[[[none]]], 0, 140, 0, 0, none, none, none, []⟩ :
        SequencerState).patterns.getD 0 []).getD 0 []).length) ∧
    (EditFrameOk (⟨[[[none]]], 0, 140, 0, 0, none, none, none, []⟩ : SequencerState)
        (rightClickClear ⟨[[[none]]], 0, 140, 0, 0, none, none, none, []⟩ 0 0) 0 0 none ∧
      EditFrameOk ⟨[[[none]]], 0, 140, 0, 0, none, none, none, []⟩
        (pointerDownEmptyCell ⟨[[[none]]], 0, 140, 0, 0, none, none, none, []⟩ 0 0) 0 0
        (some 0) ∧
      EditFrameOk ⟨[[[none]]], 0, 140, 0, 0, none, none, none, []⟩
        (dragMovePitch ⟨[[[none]]], 0, 140, 0, 0, none, none, none, []⟩ 0 0 0 0) 0 0
        (some ((dragPitchValue 0 0 : ℤ) : ℚ)) ∧
      EditFrameOk ⟨[[[none]]], 0, 140, 0, 0, none, none, none, []⟩
        (clickToggleOff ⟨[[[none]]], 0, 140, 0, 0, none, none, none, []⟩ 0 0) 0 0 none ∧
      -2400 ≤ dragPitchValue 0 0 ∧ dragPitchValue 0 0 ≤ 2400) :=
  ⟨⟨by decide, by decide, by decide⟩,
    pattern_edit_frame ⟨[[[none]]], 0, 140, 0, 0, none, none, none, []⟩ 0 0 0 0
      (by decide) (by decide) (by decide)⟩

/-! ### Cut-selection correctness -/

/-- Applying `jsIndex` to a non-negative index clamps to the length. -/
lemma jsIndex_natCast (len n : ℕ) : jsIndex len (n : ℤ) = min n len := by
  unfold jsIndex
  rw [if_neg (by omega), Int.toNat_ofNat]

/-- Applying `jsIndex` to 0 gives 0. -/
lemma jsIndex_zero (len : ℕ) : jsIndex len 0 = 0 := by
  unfold jsIndex
  simp

/-- Evaluating `jsSetAt` with a non-negative offset, in purely natural terms. -/
lemma jsSetAt_natCast (target src : List ℚ) (off : ℕ) :
    jsSetAt target src (off : ℤ) =
      if off + src.length ≤ target.length then
        some (target.take off ++ src ++ target.drop (off + src.length))
      else none := by
  unfold jsSetAt
  rw [Int.toNat_ofNat]
  by_cases h : off + src.length ≤ target.length
  · rw [if_pos ⟨by omega, h⟩, if_pos h]
  · rw [if_neg fun hh => h hh.2, if_neg h]

/-- Evaluating `jsSetAt` at offset 0 overwrites a prefix. -/
lemma jsSetAt_zero (target src : List ℚ) :
    jsSetAt target src 0 =
      if src.length ≤ target.length then some (src ++ target.drop src.length)
      else none := by
  have h0 : ((0 : ℤ)) = ((0 : ℕ) : ℤ) := rfl
  rw [h0, jsSetAt_natCast]
  simp

/-- The channel copy of an in-range ordered cut: with frame bounds `a ≤ b ≤ N`, the
two `set` calls succeed and produce the original's frames `[0, a) ++ [b, N)`. -/
lemma cutChannel_ok (old : List ℚ) (a b : ℕ) (hab : a ≤ b) (hbN : b ≤ old.length) :
    cutChannel old (a : ℤ) (b : ℤ) (old.length - (b - a)) =
      some (old.take a ++ old.drop b) := by
  have haN : a ≤ old.length := le_trans hab hbN
  have hlen1 : (old.take a).length = a := by
    rw [List.length_take]
    omega
  have hsub1 : jsSubarray old 0 (a : ℤ) = old.take a := by
    unfold jsSubarray
    rw [jsIndex_zero, jsIndex_natCast, Nat.min_eq_left haN, List.drop_zero]
  have hsub2 : jsSubarrayFrom old (b : ℤ) = old.drop b := by
    unfold jsSubarrayFrom
    rw [jsIndex_natCast, Nat.min_eq_left hbN]
  unfold cutChannel
  rw [hsub1, hsub2, jsSetAt_zero, if_pos (by simp [hlen1]; omega)]
  dsimp only
  rw [jsSetAt_natCast]
  have hcond2 : a + (List.drop b old).length ≤
      (List.take a old ++ (List.replicate (old.length - (b - a)) (0 : ℚ)).drop
        (List.take a old).length).length := by
    simp only [List.length_append, List.length_take, List.length_drop,
      List.length_replicate]
    omega
  rw [if_pos hcond2]
  have htake : (List.take a old ++ (List.replicate (old.length - (b - a)) (0 : ℚ)).drop
      (List.take a old).length).take a = List.take a old := List.take_left' hlen1
  have hdrop : (List.take a old ++ (List.replicate (old.length - (b - a)) (0 : ℚ)).drop
      (List.take a old).length).drop (a + (List.drop b old).length) = [] := by
    apply List.drop_eq_nil_of_le
    simp only [List.length_append, List.length_take, List.length_drop,
      List.length_replicate]
    omega
  rw [htake, hdrop, List.append_nil]

/-- Running `mapM` over `Option` succeeds pointwise. -/
lemma mapM_eq_some_map {α β : Type} (l : List α) (f : α → Option β) (g : α → β)
    (h : ∀ x ∈ l, f x = some (g x)) : l.mapM f = some (l.map g) := by
  induction l with
  | nil => rfl
  | cons x l ih =>
      rw [List.mapM_cons, h x (List.mem_cons_self x l),
        ih fun y hy => h y (List.mem_cons_of_mem x hy)]
      rfl

/-- Full characterization of `cutSelection` on a loaded well-formed buffer with an
ordered in-range selection: when the cut does not cover the whole buffer the result
is the spliced buffer at the original sample rate with the selection cleared; when
it covers everything the buffer becomes empty (`null`). -/
lemma cutSelection_ordered_spec (buf : SampleBuffer) (selStart selEnd : ℚ)
    (hwf : buf.Wf) (h0 : 0 ≤ selStart) (hord : selStart ≤ selEnd)
    (hbN : (⌊selEnd * (buf.sampleRate : ℚ)⌋).toNat ≤ buf.length) :
    (buf.length ≠ (⌊selEnd * (buf.sampleRate : ℚ)⌋).toNat -
        (⌊selStart * (buf.sampleRate : ℚ)⌋).toNat →
      cutSelection ⟨some buf, some selStart, some selEnd⟩ =
        some ⟨some ⟨buf.sampleRate,
          buf.length - ((⌊selEnd * (buf.sampleRate : ℚ)⌋).toNat -
            (⌊selStart * (buf.sampleRate : ℚ)⌋).toNat),
          buf.channels.map fun ch =>
            ch.take (⌊selStart * (buf.sampleRate : ℚ)⌋).toNat ++
              ch.drop (⌊selEnd * (buf.sampleRate : ℚ)⌋).toNat⟩, none, none⟩) ∧
    (buf.length = (⌊selEnd * (buf.sampleRate : ℚ)⌋).toNat -
        (⌊selStart * (buf.sampleRate : ℚ)⌋).toNat →
      cutSelection ⟨some buf, some selStart, some selEnd⟩ = some ⟨none, none, none⟩) := by
  have hr : (0 : ℚ) ≤ (buf.sampleRate : ℚ) := Nat.cast_nonneg _
  have hA0 : 0 ≤ ⌊selStart * (buf.sampleRate : ℚ)⌋ :=
    Int.floor_nonneg.mpr (mul_nonneg h0 hr)
  have hAB : ⌊selStart * (buf.sampleRate : ℚ)⌋ ≤ ⌊selEnd * (buf.sampleRate : ℚ)⌋ :=
    Int.floor_le_floor (mul_le_mul_of_nonneg_right hord hr)
  have hB0 : 0 ≤ ⌊selEnd * (buf.sampleRate : ℚ)⌋ := le_trans hA0 hAB
  have ha : ((⌊selStart * (buf.sampleRate : ℚ)⌋).toNat : ℤ) =
      ⌊selStart * (buf.sampleRate : ℚ)⌋ := Int.toNat_of_nonneg hA0
  have hb : ((⌊selEnd * (buf.sampleRate : ℚ)⌋).toNat : ℤ) =
      ⌊selEnd * (buf.sampleRate : ℚ)⌋ := Int.toNat_of_nonneg hB0
  have hab : (⌊selStart * (buf.sampleRate : ℚ)⌋).toNat ≤
      (⌊selEnd * (buf.sampleRate : ℚ)⌋).toNat := by omega
  have hmin : min selStart selEnd = selStart := min_eq_left hord
  have hmax : max selEnd selEnd = selEnd := max_self selEnd
  constructor
  · intro hne
    unfold cutSelection
    dsimp only
    rw [hmin, hmax]
    rw [if_neg (by omega)]
    have hchan : cutChannels buf.channels ⌊selStart * (buf.sampleRate : ℚ)⌋
        ⌊selEnd * (buf.sampleRate : ℚ)⌋
        ((buf.length : ℤ) - (⌊selEnd * (buf.sampleRate : ℚ)⌋ -
          ⌊selStart * (buf.sampleRate : ℚ)⌋)).toNat =
        some (buf.channels.map fun ch =>
          ch.take (⌊selStart * (buf.sampleRate : ℚ)⌋).toNat ++
            ch.drop (⌊selEnd * (buf.sampleRate : ℚ)⌋).toNat) := by
      apply mapM_eq_some_map
      intro ch hch
      rw [← ha, ← hb]
      have hl : ch.length = buf.length := hwf ch hch
      have hNL : ((buf.length : ℤ) -
          (((⌊selEnd * (buf.sampleRate : ℚ)⌋).toNat : ℤ) -
            ((⌊selStart * (buf.sampleRate : ℚ)⌋).toNat : ℤ))).toNat =
          ch.length - ((⌊selEnd * (buf.sampleRate : ℚ)⌋).toNat -
            (⌊selStart * (buf.sampleRate : ℚ)⌋).toNat) := by
        omega
      rw [hNL]
      exact cutChannel_ok ch _ _ hab (by omega)
    rw [hchan]
    have hlen : ((buf.length : ℤ) - (⌊selEnd * (buf.sampleRate : ℚ)⌋ -
        ⌊selStart * (buf.sampleRate : ℚ)⌋)).toNat =
        buf.length - ((⌊selEnd * (buf.sampleRate : ℚ)⌋).toNat -
          (⌊selStart * (buf.sampleRate : ℚ)⌋).toNat) := by omega
    rw [hlen]
  · intro hcover
    unfold cutSelection
    dsimp only
    rw [hmin, hmax]
    rw [if_pos (by omega)]

/-- Claim C2: for every well-formed buffer of `N` frames and every ordered in-range
selection mapping to frames `[a, b)` with `0 ≤ a ≤ b ≤ N`, `cutSelection` produces a
new buffer of exactly `N - (b - a)` frames whose content, for every channel, is the
original's frames `[0, a)` concatenated with `[b, N)`, at the original sample rate,
with the selection cleared; a cut covering the whole buffer (`N = b - a`) yields the
empty buffer (`null`), the code's representation of a 0-frame result. -/
theorem cut_selection_correct (buf : SampleBuffer) (selStart selEnd : ℚ)
    (hwf : buf.Wf) (h0 : 0 ≤ selStart) (hord : selStart ≤ selEnd)
    (hbN : (⌊selEnd * (buf.sampleRate : ℚ)⌋).toNat ≤ buf.length) :
    (buf.length ≠ (⌊selEnd * (buf.sampleRate : ℚ)⌋).toNat -
        (⌊selStart * (buf.sampleRate : ℚ)⌋).toNat →
      cutSelection ⟨some buf, some selStart, some selEnd⟩ =
        some ⟨some ⟨buf.sampleRate,
          buf.length - ((⌊selEnd * (buf.sampleRate : ℚ)⌋).toNat -
            (⌊selStart * (buf.sampleRate : ℚ)⌋).toNat),
          buf.channels.map fun ch =>
            ch.take (⌊selStart * (buf.sampleRate : ℚ)⌋).toNat ++
              ch.drop (⌊selEnd * (buf.sampleRate : ℚ)⌋).toNat⟩, none, none⟩) ∧
    (buf.length = (⌊selEnd * (buf.sampleRate : ℚ)⌋).toNat -
        (⌊selStart * (buf.sampleRate : ℚ)⌋).toNat →
      cutSelection ⟨some buf, some selStart, some selEnd⟩ = some ⟨none, none, none⟩) :=
  cutSelection_ordered_spec buf selStart selEnd hwf h0 hord hbN

/-- Witness for C2: cutting [1/4 s, 1 s) = frames [1, 4) from a 6-frame 4 Hz buffer
leaves frames 0, 4, 5. -/
theorem cut_selection_correct_witness :
    (sixBuffer.Wf ∧ (0 : ℚ) ≤ 1 / 4 ∧ (1 / 4 : ℚ) ≤ 1 ∧
      (⌊(1 : ℚ) * (sixBuffer.sampleRate : ℚ)⌋).toNat ≤ sixBuffer.length) ∧
    ((sixBuffer.length ≠ (⌊(1 : ℚ) * (sixBuffer.sampleRate : ℚ)⌋).toNat -
        (⌊(1 / 4 : ℚ) * (sixBuffer.sampleRate : ℚ)⌋).toNat →
      cutSelection ⟨some sixBuffer, some (1 / 4), some 1⟩ =
        some ⟨some ⟨sixBuffer.sampleRate,
          sixBuffer.length - ((⌊(1 : ℚ) * (sixBuffer.sampleRate : ℚ)⌋).toNat -
            (⌊(1 / 4 : ℚ) * (sixBuffer.sampleRate : ℚ)⌋).toNat),
          sixBuffer.channels.map fun ch =>
            ch.take (⌊(1 / 4 : ℚ) * (sixBuffer.sampleRate : ℚ)⌋).toNat ++
              ch.drop (⌊(1 : ℚ) * (sixBuffer.sampleRate : ℚ)⌋).toNat⟩, none, none⟩) ∧
    (sixBuffer.length = (⌊(1 : ℚ) * (sixBuffer.sampleRate : ℚ)⌋).toNat -
        (⌊(1 / 4 : ℚ) * (sixBuffer.sampleRate : ℚ)⌋).toNat →
      cutSelection ⟨some sixBuffer, some (1 / 4), some 1⟩ = some ⟨none, none, none⟩)) :=
  ⟨⟨(by intro ch hch; simp only [sixBuffer, List.mem_singleton] at hch; subst hch; rfl),
    by norm_num, by norm_num, by norm_num [sixBuffer]⟩,
    cut_selection_correct sixBuffer (1 / 4) 1
      (by intro ch hch; simp only [sixBuffer, List.mem_singleton] at hch; subst hch; rfl)
      (by norm_num) (by norm_num) (by norm_num [sixBuffer])⟩

/-- Claim C1 (code bug): on a 2.0 s, 44100 Hz mono buffer (88200 frames) with the
reversed selection (1.0 s, 0.5 s), the source's
`Math.max(this.selectionEnd, this.selectionEnd)` makes the cut span `[0.5 s, 0.5 s)`
— the cut removes nothing and returns the full 88200-frame (2.0 s) buffer unchanged,
not the 66150-frame (1.5 s) buffer that the claimed normalized `[0.5 s, 1.0 s)` cut
would produce. -/
theorem cut_reversed_selection_bug (ch : List ℚ) (hch : ch.length = 88200) :
    cutSelection ⟨some ⟨44100, 88200, [ch]⟩, some 1, some (1 / 2)⟩ =
      some ⟨some ⟨44100, 88200, [ch]⟩, none, none⟩ ∧ (66150 : ℕ) ≠ 88200 := by
  refine ⟨?_, by decide⟩
  have hswap : cutSelection ⟨some ⟨44100, 88200, [ch]⟩, some 1, some (1 / 2)⟩ =
      cutSelection ⟨some ⟨44100, 88200, [ch]⟩, some (1 / 2), some (1 / 2)⟩ := by
    unfold cutSelection
    dsimp only
    rw [min_eq_right (by norm_num : (1 / 2 : ℚ) ≤ 1), min_self]
  have hwf : SampleBuffer.Wf ⟨44100, 88200, [ch]⟩ := by
    intro c hc
    simp only [List.mem_singleton] at hc
    subst hc
    exact hch
  have h := (cutSelection_ordered_spec ⟨44100, 88200, [ch]⟩ (1 / 2) (1 / 2) hwf
      (by norm_num) le_rfl (by norm_num) ).1 (by norm_num)
  rw [hswap, h]
  simp only [Nat.sub_self, Nat.sub_zero, List.take_append_drop, List.map_id']

/-- Witness for C1 at the concrete constant-sample channel. -/
theorem cut_reversed_selection_bug_witness :
    (List.replicate 88200 (1 : ℚ)).length = 88200 ∧
    (cutSelection ⟨some ⟨44100, 88200, [List.replicate 88200 (1 : ℚ)]⟩, some 1,
        some (1 / 2)⟩ =
      some ⟨some ⟨44100, 88200, [List.replicate 88200 (1 : ℚ)]⟩, none, none⟩ ∧
      (66150 : ℕ) ≠ 88200) :=
  ⟨List.length_replicate 88200 1,
    cut_reversed_selection_bug (List.replicate 88200 1) (List.length_replicate 88200 1)⟩

/-- Claim C9: `cutSelection` is not total on selections extending past the buffer's
end: on a 2.0 s, 44100 Hz mono buffer (88200 frames) with selection [1.5 s, 2.5 s),
the computed new length 44100 is positive but smaller than the start frame index
66150, and the first `newChannelData.set` throws a `RangeError` (modelled `none`)
instead of returning a buffer. -/
theorem cut_overflow_selection_throws (ch : List ℚ) (hch : ch.length = 88200) :
    cutSelection ⟨some ⟨44100, 88200, [ch]⟩, some (3 / 2), some (5 / 2)⟩ = none := by
  unfold cutSelection
  dsimp only
  rw [min_eq_left (by norm_num : (3 / 2 : ℚ) ≤ 5 / 2), max_self]
  rw [show ⌊(3 / 2 : ℚ) * ((44100 : ℕ) : ℚ)⌋ = 66150 by norm_num,
    show ⌊(5 / 2 : ℚ) * ((44100 : ℕ) : ℚ)⌋ = 110250 by norm_num]
  rw [if_neg (by decide)]
  have hch66 : cutChannel ch 66150 110250 (((88200 : ℕ) : ℤ) - (110250 - 66150)).toNat =
      none := by
    unfold cutChannel
    have hsa : jsSetAt
        (List.replicate (((88200 : ℕ) : ℤ) - (110250 - 66150)).toNat (0 : ℚ))
        (jsSubarray ch 0 66150) 0 = none := by
      rw [jsSetAt_zero, if_neg]
      unfold jsSubarray
      rw [jsIndex_zero]
      simp only [List.length_replicate, List.drop_zero, List.length_take, hch]
      unfold jsIndex
      decide
    rw [hsa]
  have hcc : cutChannels [ch] 66150 110250 (((88200 : ℕ) : ℤ) - (110250 - 66150)).toNat =
      none := by
    unfold cutChannels
    rw [List.mapM_cons, hch66]
    rfl
  rw [hcc]

/-- Witness for C9 at the concrete constant-sample channel. -/
theorem cut_overflow_selection_throws_witness :
    (List.replicate 88200 (1 : ℚ)).length = 88200 ∧
    cutSelection ⟨some ⟨44100, 88200, [List.replicate 88200 (1 : ℚ)]⟩, some (3 / 2),
      some (5 / 2)⟩ = none :=
  ⟨List.length_replicate 88200 1,
    cut_overflow_selection_throws (List.replicate 88200 1) (List.length_replicate 88200 1)⟩

/-! ### WAV sample conversion -/

/-- Truncation `jsTrunc` stays within integer bounds that enclose its argument. -/
lemma jsTrunc_bounds (q : ℚ) (lo hi : ℤ) (hlo : (lo : ℚ) ≤ q) (hhi : q ≤ (hi : ℚ)) :
    lo ≤ jsTrunc q ∧ jsTrunc q ≤ hi := by
  unfold jsTrunc
  split
  · exact ⟨Int.le_floor.mpr hlo, by
      calc ⌊q⌋ ≤ ⌊(hi : ℚ)⌋ := Int.floor_le_floor hhi
        _ = hi := Int.floor_intCast hi⟩
  · exact ⟨by
      calc lo = ⌈(lo : ℚ)⌉ := (Int.ceil_intCast lo).symm
        _ ≤ ⌈q⌉ := Int.ceil_le_ceil hlo,
      Int.ceil_le.mpr hhi⟩

/-- Counterexample for C5: in the audio editor's export path the sample -1/2 is
scaled by 32767 (giving -16383 after truncation), not by 32768 (which would give
-16384) as the claim states for every negative sample in both paths. -/
theorem editor_wav_scale_counterexample :
    editorWavSample (-(1 / 2)) = -16383 ∧
    jsTrunc (-(1 / 2) * 32768) = -16384 ∧ (-16383 : ℤ) ≠ -16384 := by
  refine ⟨?_, ?_, by decide⟩
  · unfold editorWavSample jsClamp jsTrunc
    rw [min_eq_right (by norm_num : (-(1 / 2) : ℚ) ≤ 1),
      max_eq_right (by norm_num : (-1 : ℚ) ≤ -(1 / 2)),
      if_neg (by norm_num), if_neg (by norm_num)]
    rw [Int.ceil_eq_iff]
    norm_num
  · unfold jsTrunc
    rw [if_neg (by norm_num)]
    rw [Int.ceil_eq_iff]
    norm_num

/-- Amended C5: in both export paths every float sample is first clamped to
[-1, 1] and the converted value is truncated toward zero into the signed 16-bit
range.  The sequencer path scales clamped negative samples by 32768 and
non-negative ones by 32767, as claimed; the editor path's condition
`0.5 + sample < 0` parses as `(0.5 + sample) < 0`, so only samples below -0.5 are
scaled by 32768, while samples in [-0.5, 1] — including negatives in [-0.5, 0) —
are scaled by 32767. -/
theorem wav_sample_scaling (s : ℚ) :
    seqWavSample s =
      jsTrunc (if jsClamp s < 0 then jsClamp s * 32768 else jsClamp s * 32767) ∧
    editorWavSample s =
      jsTrunc (if jsClamp s < -(1 / 2) then jsClamp s * 32768 else jsClamp s * 32767) ∧
    -1 ≤ jsClamp s ∧ jsClamp s ≤ 1 ∧
    -32768 ≤ seqWavSample s ∧ seqWavSample s ≤ 32767 ∧
    -32768 ≤ editorWavSample s ∧ editorWavSample s ≤ 32767 := by
  have hlo : (-1 : ℚ) ≤ jsClamp s := le_max_left _ _
  have hhi : jsClamp s ≤ 1 := max_le (by norm_num) (min_le_left _ _)
  have hcond : (1 / 2 + jsClamp s < 0) = (jsClamp s < -(1 / 2)) := by
    apply propext
    constructor <;> intro hh <;> linarith
  have hseq : -32768 ≤ seqWavSample s ∧ seqWavSample s ≤ 32767 := by
    simp only [seqWavSample]
    split
    · refine jsTrunc_bounds _ _ _ (by push_cast; nlinarith) (by push_cast; nlinarith)
    · refine jsTrunc_bounds _ _ _ (by push_cast; nlinarith) (by push_cast; nlinarith)
  have hed : -32768 ≤ editorWavSample s ∧ editorWavSample s ≤ 32767 := by
    simp only [editorWavSample]
    split
    · refine jsTrunc_bounds _ _ _ (by push_cast; nlinarith) (by push_cast; nlinarith)
    · refine jsTrunc_bounds _ _ _ (by push_cast; nlinarith) (by push_cast; nlinarith)
  refine ⟨rfl, ?_, hlo, hhi, hseq.1, hseq.2, hed.1, hed.2⟩
  simp only [editorWavSample, hcond]

end DjKnobb
